import Mathlib

/-!
Verification of the result-ts library (Rust-style `Result` values for
TypeScript with automatic call-site trace accumulation).

The development shallowly embeds the plain-object implementation of the
library (the discriminated-union `Result` objects, the `Err` chain
accumulation algorithm, the stack-line parser `getCallSite`, and the JSON
serialization round trip).  JavaScript runtime values are modelled by the
JSON-like type `Val`; the ambient execution-stack text read by
`getCallSite` is passed in explicitly as an optional string, and the
call-site captured during a constructor invocation is likewise passed as
an explicit `Option CallSite` argument.  A JavaScript exception escaping a
function is modelled by an `Option`/`Except` result.
-/

namespace ResultTs

/-- A JavaScript runtime value, restricted to the JSON-like fragment the
library manipulates (numbers are modelled as integers; the library never
performs float arithmetic on them). `vundefined` is JavaScript `undefined`,
which is distinct from `null`. Object fields are kept in insertion order,
as JavaScript engines do for string keys. -/
inductive Val where
  | vundefined : Val
  | vnull : Val
  | vbool : Bool → Val
  | vint : Int → Val
  | vstr : String → Val
  | varr : List Val → Val
  | vobj : List (String × Val) → Val
deriving Repr

/-- JavaScript truthiness of a value (`if (x)`). -/
def truthy : Val → Bool
  | .vundefined => false
  | .vnull => false
  | .vbool b => b
  | .vint n => n != 0
  | .vstr s => s != ""
  | .varr _ => true
  | .vobj _ => true

/-- `typeof x === "object"` (true for objects, arrays and `null`). -/
def isObjType : Val → Bool
  | .vnull => true
  | .varr _ => true
  | .vobj _ => true
  | _ => false

/-- First-match field lookup in an object's field list. -/
def getField : List (String × Val) → String → Option Val
  | [], _ => none
  | (k, v) :: fs, key => if k = key then some v else getField fs key

/-- JavaScript property read `v[k]`: `undefined` when the field is missing
or the value is not an object. (The library only reads these properties
from values it has already checked to be objects.) -/
def jsGet (v : Val) (k : String) : Val :=
  match v with
  | .vobj fs => (getField fs k).getD .vundefined
  | _ => .vundefined

/-- The `in` operator: does the object have the field (even if its value
is `undefined`)? -/
def hasField (v : Val) (k : String) : Bool :=
  match v with
  | .vobj fs => (getField fs k).isSome
  | _ => false

/-- `isErrResult` from src: duck-typed recognition of a failure Result —
a non-null object whose `isErr` property is `true`. -/
def isErrResult (v : Val) : Bool :=
  match v with
  | .vobj fs =>
    match getField fs "isErr" with
    | some (.vbool true) => true
    | _ => false
  | _ => false

/-- Array spread `[...v]`: succeeds on arrays (and strings, which spread
into their characters); any other value raises a `TypeError`, modelled as
`none`. -/
def spreadVal : Val → Option (List Val)
  | .varr xs => some xs
  | .vstr s => some (s.data.map (fun c => .vstr (String.mk [c])))
  | _ => none

/-- A captured call site (src `CallSite`). The `context` field is only
produced by the spec-modelled context-aware constructors; the in-src
`getCallSite` never sets it. -/
structure CallSite where
  functionName : Option String
  file : String
  line : Nat
  context : Option String := none
deriving Repr, DecidableEq

/-- The object literal the library builds for a call site, with the field
order used by `getCallSite` (`{functionName, file, line}`); an absent
function name is an explicit `undefined` property, while the `context`
field is only present when a context was attached. -/
def csToVal (cs : CallSite) : Val :=
  .vobj ([("functionName", cs.functionName.elim .vundefined .vstr),
          ("file", .vstr cs.file),
          ("line", .vint cs.line)] ++
         (match cs.context with
          | some c => [("context", .vstr c)]
          | none => []))

/-- `Ok(value)`: the success-variant object literal from src. -/
def Ok (v : Val) : Val :=
  .vobj [("isOk", .vbool true), ("isErr", .vbool false),
         ("Ok", v), ("Err", .vundefined)]

/-- The failure-variant object literal from src (`trace` is stored under
`_trace`; it is an array in every value the library itself builds, but the
cause branch of `Err` can copy a raw `_trace` value verbatim, so the field
is typed as `Val` here). -/
def mkErrObj (e : Val) (tr : Val) : Val :=
  .vobj [("isOk", .vbool false), ("isErr", .vbool true),
         ("Ok", .vundefined), ("Err", e), ("_trace", tr)]

/-- The guard of the cause branch in `Err`:
`error && typeof error === "object" && "cause" in error && error.cause`
together with the inner `isErrResult(cause)` check. -/
def causeFires (e : Val) : Bool :=
  truthy e && isObjType e && hasField e "cause" && truthy (jsGet e "cause") &&
    isErrResult (jsGet e "cause")

/-- The tail of `Err` after the flattening step: `e1` is the (possibly
unwrapped) error value and `tr1` the trace accumulated so far.  When the
cause guard fires the accumulated trace is replaced by the cause's trace,
with the new call site (if any) placed in front of it; spreading a
non-iterable `_trace` raises, modelled as `none`. -/
def finishErr (here : Option CallSite) (e1 : Val) (tr1 : List Val) : Option Val :=
  if causeFires e1 then
    match here with
    | some cs =>
      match spreadVal (jsGet (jsGet e1 "cause") "_trace") with
      | some prev => some (mkErrObj e1 (.varr (csToVal cs :: prev)))
      | none => none
    | none => some (mkErrObj e1 (jsGet (jsGet e1 "cause") "_trace"))
  else some (mkErrObj e1 (.varr tr1))

/-- `Err(error)` from src (the plain-object implementation). The ambient
call-site capture is passed in as `here`; a thrown `TypeError` (spreading
a non-iterable `_trace`) is modelled as `none`. -/
def Err (here : Option CallSite) (error : Val) : Option Val :=
  let newTrace : List Val := (here.map csToVal).toList
  if isErrResult error then
    match spreadVal (jsGet error "_trace") with
    | some prev => finishErr here (jsGet error "Err") (prev ++ newTrace)
    | none => none
  else finishErr here error newTrace

/-! ### Call-site capture (`getCallSite`)

`getCallSite` splits the ambient stack text on `"\n"` and tries to parse
its fourth line with four regular expressions, in order.  The regexes are
anchored (`^...$`) and built from literals and single-character classes
under lazy or greedy quantifiers, so they are embedded as token lists run
by a backtracking matcher that explores candidate repetition counts in
the same preference order as the JavaScript engine (lazy: shortest first;
greedy: longest first). -/

/-- One regex element: a literal character, or a quantified
single-character class (`lo` = minimal repetition count, 0 for `*` and 1
for `+`; `lz` = lazy; `cap` = capturing group). -/
inductive Tok where
  | lit : Char → Tok
  | cls : (Char → Bool) → (lo : Nat) → (lz : Bool) → (cap : Bool) → Tok

/-- First `some` produced by `f` over a list, in order. -/
def firstSome : List α → (α → Option β) → Option β
  | [], _ => none
  | a :: as, f =>
    match f a with
    | some b => some b
    | none => firstSome as f

/-- Run a token list against an entire string (the regexes are anchored at
both ends); returns the list of captured substrings on success. -/
def tmatch : List Tok → List Char → Option (List String)
  | [], s => if s.isEmpty then some [] else none
  | .lit c :: ts, s =>
    match s with
    | [] => none
    | x :: rest => if x = c then tmatch ts rest else none
  | .cls p lo lz cap :: ts, s =>
    let ns := (List.range (s.length + 1)).drop lo
    firstSome (if lz then ns else ns.reverse) (fun n =>
      if (s.take n).all p then
        (tmatch ts (s.drop n)).map (fun caps =>
          if cap then String.mk (s.take n) :: caps else caps)
      else none)

/-- JavaScript `\s` (the common members; exotic Unicode spaces omitted —
no claim depends on them). -/
def wsChar (c : Char) : Bool :=
  c = ' ' || c = '\t' || c = '\n' || c = '\r' || c = '\x0b' || c = '\x0c' ||
    c = '\u00A0' || c = '\uFEFF'

/-- JavaScript `.` (anything but a line terminator). -/
def dotChar (c : Char) : Bool :=
  !(c = '\n' || c = '\r' || c = '\u2028' || c = '\u2029')

def digitChar (c : Char) : Bool := c.isDigit

/-- `^\s*at\s+(.+?)\s+\((.*?):(\d+):\d+\)$` (V8 with function name). -/
def pat1 : List Tok :=
  [.cls wsChar 0 false false, .lit 'a', .lit 't', .cls wsChar 1 false false,
   .cls dotChar 1 true true, .cls wsChar 1 false false, .lit '(',
   .cls dotChar 0 true true, .lit ':', .cls digitChar 1 false true,
   .lit ':', .cls digitChar 1 false false, .lit ')']

/-- `^(.+?)@(.*?):(\d+):\d+$` (Firefox/Safari style). -/
def pat2 : List Tok :=
  [.cls dotChar 1 true true, .lit '@', .cls dotChar 0 true true, .lit ':',
   .cls digitChar 1 false true, .lit ':', .cls digitChar 1 false false]

/-- `^\s*at\s+\((.*?):(\d+):\d+\)$` (V8 without function name). -/
def pat3 : List Tok :=
  [.cls wsChar 0 false false, .lit 'a', .lit 't', .cls wsChar 1 false false,
   .lit '(', .cls dotChar 0 true true, .lit ':', .cls digitChar 1 false true,
   .lit ':', .cls digitChar 1 false false, .lit ')']

/-- `^\s*at\s+(.*?):(\d+):\d+$` (V8 top-level execution). -/
def pat4 : List Tok :=
  [.cls wsChar 0 false false, .lit 'a', .lit 't', .cls wsChar 1 false false,
   .cls dotChar 0 true true, .lit ':', .cls digitChar 1 false true,
   .lit ':', .cls digitChar 1 false false]

/-- `parseInt(digits, 10)` on an all-digit capture. -/
def digitsToNat (ds : List Char) : Nat :=
  ds.foldl (fun n c => 10 * n + (c.toNat - 48)) 0

/-- The pattern cascade `getCallSite` applies to the caller line.  Each
successful match yields exactly one `CallSite`; `<anonymous>` (pattern 1)
and an empty name (pattern 2, `match[1] || undefined`) map to an absent
function name.  (A successful `tmatch` on these patterns always yields
exactly as many captures as the pattern has groups — see
`tmatch_capCount` — so the arity patterns below never fall through on a
successful match.) -/
def parseLine (line : List Char) : Option CallSite :=
  match tmatch pat1 line with
  | some [fn, fl, ln] =>
    some { functionName := if fn = "<anonymous>" then none else some fn,
           file := fl, line := digitsToNat ln.data }
  | _ =>
    match tmatch pat2 line with
    | some [fn, fl, ln] =>
      some { functionName := if fn = "" then none else some fn,
             file := fl, line := digitsToNat ln.data }
    | _ =>
      match tmatch pat3 line with
      | some [fl, ln] =>
        some { functionName := none, file := fl, line := digitsToNat ln.data }
      | _ =>
        match tmatch pat4 line with
        | some [fl, ln] =>
          some { functionName := none, file := fl, line := digitsToNat ln.data }
        | _ => none

/-- JavaScript `String.split` with a one-character separator. -/
def splitOnChar (sep : Char) : List Char → List (List Char)
  | [] => [[]]
  | c :: rest =>
    match splitOnChar sep rest with
    | [] => [[]]
    | g :: gs => if c = sep then [] :: g :: gs else (c :: g) :: gs

/-- `getCallSite` from src.  The ambient `err.stack` text is passed in
explicitly (`none` models a runtime that provides no stack; the empty
string is falsy in the `!err.stack` guard).  Returns the parse of the
fourth stack line, or `none` when the stack is absent, has fewer than four
lines, or the fourth line matches no supported dialect. -/
def getCallSite (stack? : Option String) : Option CallSite :=
  match stack? with
  | none => none
  | some stack =>
    if stack.data.isEmpty then none
    else
      let ls := splitOnChar '\n' stack.data
      if h : ls.length < 4 then none
      else parseLine (ls.get ⟨3, by omega⟩)

/-- `trace(result)` from src: the `_trace` of a failure, `[]` for a
success. -/
def trace (r : Val) : Val :=
  if truthy (jsGet r "isErr") then jsGet r "_trace" else .varr []

/-- Length of a result's `_trace` array (0 when absent or not an array). -/
def traceLen (r : Val) : Nat :=
  match jsGet r "_trace" with
  | .varr xs => xs.length
  | _ => 0

/-- `unwrapErr(result)` from src: the error value of a failure; throws a
host `Error` on a success (the thrown object carries only its message). -/
def unwrapErr (r : Val) : Except Val Val :=
  if truthy (jsGet r "isErr") then .ok (jsGet r "Err")
  else .error (.vobj [("message", .vstr "Called `unwrapErr()` on an `Ok` value")])

/-! ### Serialization: `JSON.parse(JSON.stringify(v))` as one function

The spec's encoder is "a generic structured-value encoder" assumed
faithful to field names, array order and primitive values; the library's
tests use `JSON.stringify`/`JSON.parse`.  On the `Val` fragment the whole
round trip collapses to: `undefined` serializes to nothing (fields with
`undefined` values are dropped, `undefined` array elements become
`null`), everything else is preserved. -/

mutual
/-- The JSON round trip; `none` when the value serializes to nothing
(i.e. it is `undefined`). -/
def jrt : Val → Option Val
  | .vundefined => none
  | .vnull => some .vnull
  | .vbool b => some (.vbool b)
  | .vint n => some (.vint n)
  | .vstr s => some (.vstr s)
  | .varr xs => some (.varr (jrtArr xs))
  | .vobj fs => some (.vobj (jrtFields fs))

/-- Round trip of array elements (`undefined` becomes `null`). -/
def jrtArr : List Val → List Val
  | [] => []
  | x :: xs =>
    (match jrt x with
     | some w => w
     | none => .vnull) :: jrtArr xs

/-- Round trip of object fields (`undefined`-valued fields are dropped). -/
def jrtFields : List (String × Val) → List (String × Val)
  | [] => []
  | (k, v) :: fs =>
    match jrt v with
    | some w => (k, w) :: jrtFields fs
    | none => jrtFields fs
end

mutual
/-- Normal form for structural equality of JavaScript values: a field
explicitly set to `undefined` is indistinguishable (by value) from a
missing field, so such fields are dropped recursively.  Two values are
"structurally equal" in the sense of the spec's round-trip property when
their normal forms coincide. -/
def norm : Val → Val
  | .vundefined => .vundefined
  | .vnull => .vnull
  | .vbool b => .vbool b
  | .vint n => .vint n
  | .vstr s => .vstr s
  | .varr xs => .varr (normArr xs)
  | .vobj fs => .vobj (normFields fs)

def normArr : List Val → List Val
  | [] => []
  | x :: xs => norm x :: normArr xs

def normFields : List (String × Val) → List (String × Val)
  | [] => []
  | (_, .vundefined) :: fs => normFields fs
  | (k, v) :: fs => (k, norm v) :: normFields fs
end

/-! ### Operations exercised by the tests whose implementation is not in
the sources -/

/-- Modelled from the spec: step 1 of `failure(input, context?)` — a
supplied context string is attached to the captured `CallSite`; when
capture yields nothing the context is dropped (the source "doesn't
synthesize a location-less record when capture fails entirely"). -/
def hereWithCtx (here : Option CallSite) (ctx : Option String) : Option CallSite :=
  match here, ctx with
  | some cs, some c => some { cs with context := some c }
  | some cs, none => some cs
  | none, _ => none

/-- Modelled from the spec: `Err(error, context?)` — the context-aware
failure constructor exercised by the tests (`src/src/index.test.ts`) but
absent from the sources; identical to `Err` except that the context is
attached to the captured call site first. -/
def ErrCtx (here : Option CallSite) (ctx : Option String) (error : Val) : Option Val :=
  Err (hereWithCtx here ctx) error

/-- Modelled from the spec: `unwrap(result, context?)` — on a success the
contained value is returned; on a failure the trace is extended by one hop
exactly as `failure(result, context)` would and the resulting Failure is
raised as the payload of the fatal signal (the tests expect the raised
payload to carry the underlying error: `toThrow("fail")`).  The in-src
older versions instead raise a fresh generic `Error`; the implementation
matching the tests is not under src.  The impossible construction failure
is mapped to an `undefined` payload. -/
def unwrap (here : Option CallSite) (ctx : Option String) (r : Val) : Except Val Val :=
  if truthy (jsGet r "isOk") then .ok (jsGet r "Ok")
  else
    match ErrCtx here ctx r with
    | some f => .error f
    | none => .error .vundefined

/-- Modelled from the spec: `withoutTraces(result)` / `stripTrace` —
exercised by the tests but absent from the sources.  "Returns the same
Success unchanged (identity), or a new Failure with identical error value
and an empty trace." -/
def withoutTraces (r : Val) : Val :=
  if isErrResult r then mkErrObj (jsGet r "Err") (.varr []) else r

/-- Modelled from the spec: `map(result, fn)` / `mapSuccess` — exercised
by the tests but absent from the sources.  "If Success, apply `fn` to the
value (fn itself returns a Result); if Failure, return unchanged." -/
def map (r : Val) (fn : Val → Val) : Val :=
  if truthy (jsGet r "isOk") then fn (jsGet r "Ok") else r

/-- Doubling function used to instantiate the spec's
`mapSuccess(success(5), x => success(x*2))` example. -/
def double (v : Val) : Val :=
  match v with
  | .vint n => .vint (2 * n)
  | _ => .vnull

/-- Iterated re-wrapping: each hop binds the previous result into `Err`
with its own captured call site (oldest hop first). -/
def wrapMany (css : List CallSite) (acc : Option Val) : Option Val :=
  css.foldl (fun a cs => a.bind (Err (some cs))) acc

/-- The `file` of a call-site value (projection used to state trace-order
inequalities on concrete values). -/
def fileOf (v : Val) : String :=
  match jsGet v "file" with
  | .vstr s => s
  | _ => ""

/-- The files of a result's trace entries, in trace order. -/
def traceFiles (r : Val) : List String :=
  match jsGet r "_trace" with
  | .varr xs => xs.map fileOf
  | _ => []

/-- Trace length of an optional result (0 when the construction threw). -/
def optTraceLen (o : Option Val) : Nat :=
  o.elim 0 traceLen

/-- Number of capturing groups in a token list. -/
def capCount (ts : List Tok) : Nat :=
  ts.countP fun t =>
    match t with
    | .cls _ _ _ c => c
    | .lit _ => false

/-- Does a line match one of the four supported stack-trace dialects? -/
def matchesDialect (line : List Char) : Bool :=
  (tmatch pat1 line).isSome || (tmatch pat2 line).isSome ||
    (tmatch pat3 line).isSome || (tmatch pat4 line).isSome

/-! ### Concrete values used by counterexamples and witnesses -/

/-- A call site in file `a.ts` (as captured inside an `inner` function). -/
def csA : CallSite := ⟨some "inner", "a.ts", 1, none⟩

/-- A call site in file `b.ts` (as captured inside an `outer` function). -/
def csB : CallSite := ⟨some "outer", "b.ts", 2, none⟩

/-- A causal Failure with an empty trace. -/
def rootCause : Val := mkErrObj (.vstr "root") (.varr [])

/-- A raw error value whose `cause` is the Failure `rootCause`. -/
def eWithCause : Val := .vobj [("cause", rootCause)]

/-- The Failure `Err(eWithCause)` builds when capture yields `csA`:
error `eWithCause`, trace `[csA]`. -/
def fWithCause : Val := mkErrObj eWithCause (.varr [csToVal csA])

/-- A causal Failure whose trace already holds `csA`. -/
def rootCauseTraced : Val := mkErrObj (.vstr "root") (.varr [csToVal csA])

/-- A raw error value whose `cause` is the traced Failure
`rootCauseTraced`. -/
def eWithTracedCause : Val := .vobj [("cause", rootCauseTraced)]

/-! ## Helper lemmas -/

lemma isErrResult_mkErrObj (e tr : Val) : isErrResult (mkErrObj e tr) = true := rfl

lemma jsGet_mkErrObj_Err (e tr : Val) : jsGet (mkErrObj e tr) "Err" = e := rfl

lemma jsGet_mkErrObj_isOk (e tr : Val) :
    jsGet (mkErrObj e tr) "isOk" = .vbool false := rfl

lemma jsGet_mkErrObj_trace (e tr : Val) : jsGet (mkErrObj e tr) "_trace" = tr := rfl

/-- Re-wrapping an existing Failure whose (unwrapped) error does not
trigger the cause branch: the error is flattened out and the new call
site (if any) is appended after the existing trace. -/
lemma err_rewrap_gen (o : Option CallSite) (e : Val) (ts : List Val)
    (hc : causeFires e = false) :
    Err o (mkErrObj e (.varr ts)) =
      some (mkErrObj e (.varr (ts ++ (o.map csToVal).toList))) := by
  simp [Err, isErrResult_mkErrObj, jsGet_mkErrObj_Err, jsGet_mkErrObj_trace,
    spreadVal, finishErr, hc]

/-- Wrapping a raw, non-Failure-shaped, cause-free error value. -/
lemma err_raw (o : Option CallSite) (e : Val)
    (hraw : isErrResult e = false) (hc : causeFires e = false) :
    Err o e = some (mkErrObj e (.varr (o.map csToVal).toList)) := by
  simp [Err, hraw, finishErr, hc]

/-- Re-wrapping a Failure whose error triggers the cause branch with a
successful capture: the accumulated trace is replaced by the new call
site followed by the cause's trace. -/
lemma err_rewrap_cause (cs : CallSite) (e : Val) (ts cts : List Val)
    (hcf : causeFires e = true)
    (hct : jsGet (jsGet e "cause") "_trace" = .varr cts) :
    Err (some cs) (mkErrObj e (.varr ts)) =
      some (mkErrObj e (.varr (csToVal cs :: cts))) := by
  simp [Err, isErrResult_mkErrObj, jsGet_mkErrObj_Err, jsGet_mkErrObj_trace,
    spreadVal, finishErr, hcf, hct]

/-- Re-wrapping a Failure whose error triggers the cause branch when
capture failed: the cause's raw `_trace` value is copied verbatim. -/
lemma err_rewrap_cause_none (e : Val) (ts : List Val)
    (hcf : causeFires e = true) :
    Err none (mkErrObj e (.varr ts)) =
      some (mkErrObj e (jsGet (jsGet e "cause") "_trace")) := by
  simp [Err, isErrResult_mkErrObj, jsGet_mkErrObj_Err, jsGet_mkErrObj_trace,
    spreadVal, finishErr, hcf]

/-- Folding further wraps over an already-built cause-free Failure keeps
appending one call site per hop. -/
lemma wrapMany_failure (e : Val) (hc : causeFires e = false) :
    ∀ (css : List CallSite) (ts : List Val),
      wrapMany css (some (mkErrObj e (.varr ts))) =
        some (mkErrObj e (.varr (ts ++ css.map csToVal))) := by
  intro css
  induction css with
  | nil => intro ts; simp [wrapMany]
  | cons cs rest ih =>
    intro ts
    simp only [wrapMany, List.foldl_cons, Option.some_bind]
    have h1 : Err (some cs) (mkErrObj e (.varr ts)) =
        some (mkErrObj e (.varr (ts ++ [csToVal cs]))) := by
      simpa using err_rewrap_gen (some cs) e ts hc
    rw [h1]
    have := ih (ts ++ [csToVal cs])
    simp only [wrapMany] at this
    rw [this]
    simp

/-- A depth-`N` chain starting from a raw cause-free error builds the
trace of all `N` call sites, oldest hop first. -/
lemma wrapMany_raw (e : Val) (cs0 : CallSite) (css : List CallSite)
    (hraw : isErrResult e = false) (hc : causeFires e = false) :
    wrapMany (cs0 :: css) (some e) =
      some (mkErrObj e (.varr ((cs0 :: css).map csToVal))) := by
  simp only [wrapMany, List.foldl_cons, Option.some_bind]
  rw [show Err (some cs0) e = some (mkErrObj e (.varr [csToVal cs0])) by
    simpa using err_raw (some cs0) e hraw hc]
  have := wrapMany_failure e hc css [csToVal cs0]
  simp only [wrapMany] at this
  rw [this]
  simp

/-- A call-site object survives the JSON round trip up to structural
equality (its explicit `undefined` function name is dropped). -/
lemma jrt_csToVal (cs : CallSite) :
    ∃ w, jrt (csToVal cs) = some w ∧ norm w = norm (csToVal cs) := by
  rcases cs with ⟨fn, fl, ln, ctx⟩
  cases fn <;> cases ctx <;>
    simp [csToVal, jrt, jrtFields, norm, normFields, Option.elim]

lemma jrtArr_length (xs : List Val) : (jrtArr xs).length = xs.length := by
  induction xs with
  | nil => simp [jrtArr]
  | cons x xs ih => simp [jrtArr, ih]

/-- A trace of call-site objects survives the JSON round trip up to
structural equality. -/
lemma normArr_jrtArr_csToVal (css : List CallSite) :
    normArr (jrtArr (css.map csToVal)) = normArr (css.map csToVal) := by
  induction css with
  | nil => simp [jrtArr]
  | cons cs rest ih =>
    obtain ⟨w, hw, hnw⟩ := jrt_csToVal cs
    simp [jrtArr, normArr, hw, hnw, ih]

lemma tmatch_nil_eq (s : List Char) :
    tmatch [] s = if s.isEmpty then some [] else none := by
  rw [tmatch.eq_def]

lemma tmatch_lit_nil (c : Char) (ts : List Tok) :
    tmatch (.lit c :: ts) [] = none := by
  rw [tmatch.eq_def]

lemma tmatch_lit_cons (c x : Char) (ts : List Tok) (rest : List Char) :
    tmatch (.lit c :: ts) (x :: rest) =
      if x = c then tmatch ts rest else none := by
  rw [tmatch.eq_def]

lemma tmatch_cls_eq (p : Char → Bool) (lo : Nat) (lz cap : Bool)
    (ts : List Tok) (s : List Char) :
    tmatch (.cls p lo lz cap :: ts) s =
      (let ns := (List.range (s.length + 1)).drop lo
       firstSome (if lz then ns else ns.reverse) (fun n =>
        if (s.take n).all p then
          (tmatch ts (s.drop n)).map (fun caps =>
            if cap then String.mk (s.take n) :: caps else caps)
        else none)) := by
  rw [tmatch.eq_def]

lemma firstSome_eq_some {l : List α} {f : α → Option β} {b : β}
    (h : firstSome l f = some b) : ∃ a ∈ l, f a = some b := by
  induction l with
  | nil => simp [firstSome] at h
  | cons x xs ih =>
    cases hx : f x with
    | some c =>
      rw [firstSome, hx] at h
      exact ⟨x, List.mem_cons_self x xs, by rw [hx]; exact h⟩
    | none =>
      rw [firstSome, hx] at h
      obtain ⟨a, ha, hfa⟩ := ih h
      exact ⟨a, List.mem_cons_of_mem x ha, hfa⟩

/-- A successful match yields exactly one capture per capturing group. -/
lemma tmatch_capCount :
    ∀ (ts : List Tok) (s : List Char) (caps : List String),
      tmatch ts s = some caps → caps.length = capCount ts := by
  intro ts
  induction ts with
  | nil =>
    intro s caps h
    rw [tmatch_nil_eq] at h
    by_cases hs : s.isEmpty
    · rw [if_pos hs] at h
      obtain rfl : ([] : List String) = caps := Option.some.inj h
      simp [capCount]
    · rw [if_neg hs] at h; exact absurd h (by simp)
  | cons t ts ih =>
    intro s caps h
    match t with
    | .lit c =>
      match s with
      | [] => rw [tmatch_lit_nil] at h; exact absurd h (by simp)
      | x :: rest =>
        rw [tmatch_lit_cons] at h
        by_cases hx : x = c
        · rw [if_pos hx] at h
          simpa [capCount, List.countP_cons] using ih rest caps h
        · rw [if_neg hx] at h; exact absurd h (by simp)
    | .cls p lo lz cap =>
      rw [tmatch_cls_eq] at h
      obtain ⟨n, _, hfn⟩ := firstSome_eq_some h
      by_cases hall : (s.take n).all p
      · rw [if_pos hall] at hfn
        cases hm : tmatch ts (s.drop n) with
        | none => rw [hm] at hfn; exact absurd hfn (by simp)
        | some caps2 =>
          rw [hm] at hfn
          simp only [Option.map_some'] at hfn
          have hlen := ih (s.drop n) caps2 hm
          obtain rfl := Option.some.inj hfn
          cases cap <;> simp [capCount, List.countP_cons] at hlen ⊢ <;> omega
      · rw [if_neg hall] at hfn; exact absurd hfn (by simp)

/-- The parse of a line succeeds exactly when one of the four dialects
matches it (a successful match always has the right number of captures,
so the arity patterns in `parseLine` never fall through). -/
lemma parseLine_isSome (line : List Char) :
    (parseLine line).isSome = matchesDialect line := by
  cases h1 : tmatch pat1 line with
  | some caps =>
    have := tmatch_capCount pat1 line caps h1
    rw [show capCount pat1 = 3 from rfl] at this
    obtain ⟨a, b, c, rfl⟩ := List.length_eq_three.mp this
    simp [parseLine, h1, matchesDialect]
  | none =>
    cases h2 : tmatch pat2 line with
    | some caps =>
      have := tmatch_capCount pat2 line caps h2
      rw [show capCount pat2 = 3 from rfl] at this
      obtain ⟨a, b, c, rfl⟩ := List.length_eq_three.mp this
      simp [parseLine, h1, h2, matchesDialect]
    | none =>
      cases h3 : tmatch pat3 line with
      | some caps =>
        have := tmatch_capCount pat3 line caps h3
        rw [show capCount pat3 = 2 from rfl] at this
        obtain ⟨a, b, rfl⟩ := List.length_eq_two.mp this
        simp [parseLine, h1, h2, h3, matchesDialect]
      | none =>
        cases h4 : tmatch pat4 line with
        | some caps =>
          have := tmatch_capCount pat4 line caps h4
          rw [show capCount pat4 = 2 from rfl] at this
          obtain ⟨a, b, rfl⟩ := List.length_eq_two.mp this
          simp [parseLine, h1, h2, h3, h4, matchesDialect]
        | none =>
          simp [parseLine, h1, h2, h3, h4, matchesDialect]

/-- A stack report with fewer than four lines yields no call site. -/
lemma getCallSite_short (s : String)
    (h : (splitOnChar '\n' s.data).length < 4) :
    getCallSite (some s) = none := by
  by_cases he : s.data.isEmpty
  · simp [getCallSite, he]
  · simp [getCallSite, he, h]

/-- With at least four lines, `getCallSite` is exactly the parse of the
fourth line. -/
lemma getCallSite_fourth (s : String)
    (h : 3 < (splitOnChar '\n' s.data).length) :
    getCallSite (some s) =
      parseLine ((splitOnChar '\n' s.data).get ⟨3, h⟩) := by
  have he : ¬ s.data.isEmpty := by
    intro hh
    rw [List.isEmpty_iff] at hh
    rw [hh] at h
    simp [splitOnChar] at h
  simp only [getCallSite, he, if_false, Bool.false_eq_true]
  rw [dif_neg (by omega)]

/-! ## Claim theorems -/

/-- C1 (counterexample): the claim fails as stated.  `fWithCause` is an
existing Failure (produced by `Err` itself) with trace `[csA]`, but its
underlying error value carries a Failure-shaped `cause`, so re-wrapping
it with capture `csB` does not append `csB` after the existing trace:
the cause branch rebuilds the trace and the result's trace is `[csB]`,
not `[csA, csB]`. -/
theorem err_rewrap_append_cex :
    Err (some csA) eWithCause = some fWithCause ∧
    traceFiles fWithCause = ["a.ts"] ∧
    fileOf (csToVal csB) = "b.ts" ∧
    Err (some csB) fWithCause = some (mkErrObj eWithCause (.varr [csToVal csB])) ∧
    traceFiles (mkErrObj eWithCause (.varr [csToVal csB])) ≠
      traceFiles fWithCause ++ ["b.ts"] :=
  ⟨rfl, by decide, by decide, rfl, by decide⟩

/-- C1 (amended): for a Failure whose underlying error value does not
carry a truthy Failure-shaped `cause` link, `Err` flattens the wrapper
(the result's error is the input's error) and appends the captured call
site, if any, after all existing trace entries; consequently a chain of
`N` re-wraps starting from such a raw error value, with capture
succeeding at every hop, yields a trace of length exactly `N` in
creation order, oldest first. -/
theorem err_rewrap_append (o : Option CallSite) (e : Val) (ts : List Val)
    (cs0 : CallSite) (css : List CallSite)
    (hraw : isErrResult e = false) (hc : causeFires e = false) :
    Err o (mkErrObj e (.varr ts)) =
      some (mkErrObj e (.varr (ts ++ (o.map csToVal).toList))) ∧
    wrapMany (cs0 :: css) (some e) =
      some (mkErrObj e (.varr ((cs0 :: css).map csToVal))) ∧
    traceLen (mkErrObj e (.varr ((cs0 :: css).map csToVal))) = css.length + 1 :=
  ⟨err_rewrap_gen o e ts hc, wrapMany_raw e cs0 css hraw hc,
    by simp [traceLen, jsGet_mkErrObj_trace]⟩

/-- C1 (witness): concrete instance of `err_rewrap_append` with a string
error, a one-entry existing trace and a two-hop chain. -/
theorem err_rewrap_append_witness :
    isErrResult (.vstr "boom") = false ∧
    causeFires (.vstr "boom") = false ∧
    (Err (some csB) (mkErrObj (.vstr "boom") (.varr [csToVal csA])) =
      some (mkErrObj (.vstr "boom") (.varr ([csToVal csA] ++ [csToVal csB]))) ∧
    wrapMany [csA, csB] (some (.vstr "boom")) =
      some (mkErrObj (.vstr "boom") (.varr ([csA, csB].map csToVal))) ∧
    traceLen (mkErrObj (.vstr "boom") (.varr ([csA, csB].map csToVal))) = 1 + 1) :=
  ⟨rfl, rfl, err_rewrap_append (some csB) (.vstr "boom") [csToVal csA] csA [csB] rfl rfl⟩

/-- C2 (counterexample): the claim fails as stated.  `fWithCause` is a
Failure with a non-empty trace; its decoded form is still recognized and
its trace survives structurally, but because its error value carries a
Failure-shaped `cause` (which also survives decoding), re-wrapping the
decoded value rebuilds the trace from the cause instead of appending:
the result's trace length is 1, not original + 1 = 2. -/
theorem roundtrip_extends_cex :
    Err (some csA) eWithCause = some fWithCause ∧
    traceLen fWithCause = 1 ∧
    isErrResult ((jrt fWithCause).getD .vundefined) = true ∧
    norm (trace ((jrt fWithCause).getD .vundefined)) = norm (trace fWithCause) ∧
    optTraceLen ((jrt fWithCause).bind (Err (some csB))) ≠ traceLen fWithCause + 1 :=
  ⟨rfl, rfl, rfl, rfl, by decide⟩

/-- C2 (amended): for a Failure with a non-empty trace of call-site
records whose underlying error value does not, after decoding, carry a
truthy Failure-shaped `cause` link: the JSON round trip yields a value
whose extracted trace is structurally equal to the pre-encoding trace
and which `Err` recognizes as an existing Failure purely from its shape
(`isErr` flag true), so re-wrapping the decoded value appends exactly
one more entry, giving total trace length = original + 1. -/
theorem roundtrip_extends (e : Val) (css : List CallSite) (cs1 : CallSite)
    (_hne : css ≠ [])
    (hdec : causeFires ((jrt e).getD .vundefined) = false) :
    ∃ d, jrt (mkErrObj e (.varr (css.map csToVal))) = some d ∧
      isErrResult d = true ∧
      norm (trace d) = norm (.varr (css.map csToVal)) ∧
      ∃ out, Err (some cs1) d = some out ∧
        traceLen out = css.length + 1 := by
  match he : jrt e with
  | some w =>
    refine ⟨.vobj [("isOk", .vbool false), ("isErr", .vbool true),
      ("Err", w), ("_trace", .varr (jrtArr (css.map csToVal)))], ?_, ?_, ?_, ?_⟩
    · simp [mkErrObj, jrt, jrtFields, he]
    · rfl
    · simp [trace, jsGet, getField, truthy, norm, normArr_jrtArr_csToVal]
    · refine ⟨mkErrObj w (.varr (jrtArr (css.map csToVal) ++ [csToVal cs1])), ?_, ?_⟩
      · have hw : causeFires w = false := by rw [he] at hdec; simpa using hdec
        simp [Err, isErrResult, getField, jsGet, spreadVal, finishErr, hw]
      · simp [traceLen, jsGet, mkErrObj, getField, jrtArr_length]
  | none =>
    refine ⟨.vobj [("isOk", .vbool false), ("isErr", .vbool true),
      ("_trace", .varr (jrtArr (css.map csToVal)))], ?_, ?_, ?_, ?_⟩
    · simp [mkErrObj, jrt, jrtFields, he]
    · rfl
    · simp [trace, jsGet, getField, truthy, norm, normArr_jrtArr_csToVal]
    · refine ⟨mkErrObj .vundefined (.varr (jrtArr (css.map csToVal) ++ [csToVal cs1])), ?_, ?_⟩
      · simp [Err, isErrResult, getField, jsGet, spreadVal, finishErr, causeFires]
      · simp [traceLen, jsGet, mkErrObj, getField, jrtArr_length]

/-- C2 (witness): concrete instance of `roundtrip_extends` for a string
error and a one-entry trace. -/
theorem roundtrip_extends_witness :
    ([csA] : List CallSite) ≠ [] ∧
    causeFires ((jrt (.vstr "boom")).getD .vundefined) = false ∧
    (∃ d, jrt (mkErrObj (.vstr "boom") (.varr ([csA].map csToVal))) = some d ∧
      isErrResult d = true ∧
      norm (trace d) = norm (.varr ([csA].map csToVal)) ∧
      ∃ out, Err (some csB) d = some out ∧
        traceLen out = [csA].length + 1) :=
  ⟨by simp, rfl, roundtrip_extends (.vstr "boom") [csA] csB (by simp) rfl⟩

/-- C3 (code evaluated at the failing input): wrapping a raw error value
`eWithTracedCause` (not itself Failure-shaped) whose `cause` is a
previously-captured Failure with trace `[csA]`, with capture yielding
`csB`, keeps the error value itself but puts the new call site BEFORE
the cause's entries: the trace is `[csB, csA]` (files
`["b.ts", "a.ts"]`), not the append-at-the-end order `[csA, csB]`
required by the claim, by the spec's ordering invariant, and by the
code's own doc comment ("original error to current caller"). -/
theorem err_cause_prepend_eval :
    Err (some csB) eWithTracedCause =
      some (mkErrObj eWithTracedCause (.varr [csToVal csB, csToVal csA])) ∧
    jsGet (mkErrObj eWithTracedCause (.varr [csToVal csB, csToVal csA])) "Err" =
      eWithTracedCause ∧
    traceFiles (mkErrObj eWithTracedCause (.varr [csToVal csB, csToVal csA])) =
      ["b.ts", "a.ts"] ∧
    (["b.ts", "a.ts"] : List String) ≠ ["a.ts", "b.ts"] :=
  ⟨rfl, rfl, by decide, by decide⟩

/-- C4: call-site capture is best-effort and total — an absent or empty
stack, a stack of fewer than four lines, or an unparsable fourth line
all yield no record rather than an error; with at least four lines the
result is exactly the parse of the fourth line, a line yields a record
precisely when one of the supported dialects matches it, and the
`<anonymous>` marker maps to an absent function name. -/
theorem getCallSite_bestEffort (s3 s4 : String) (line line2 : List Char)
    (fn fl ln : String)
    (h3 : (splitOnChar '\n' s3.data).length < 4)
    (h4 : 3 < (splitOnChar '\n' s4.data).length)
    (hanon : tmatch pat1 line = some [fn, fl, ln]) :
    getCallSite none = none ∧
    getCallSite (some "") = none ∧
    getCallSite (some s3) = none ∧
    getCallSite (some s4) =
      parseLine ((splitOnChar '\n' s4.data).get ⟨3, h4⟩) ∧
    (parseLine line2).isSome = matchesDialect line2 ∧
    parseLine line = some
      { functionName := if fn = "<anonymous>" then none else some fn,
        file := fl, line := digitsToNat ln.data, context := none } :=
  ⟨rfl, rfl, getCallSite_short s3 h3, getCallSite_fourth s4 h4,
    parseLine_isSome line2, by simp [parseLine, hanon]⟩

/-- C4 (witness): a two-line stack yields none; a four-line stack is
parsed at its fourth line; an anonymous V8 frame yields a record with an
absent function name; `junk` matches no dialect. -/
theorem getCallSite_bestEffort_witness :
    getCallSite (some "a\nb") = none ∧
    getCallSite (some "Error\na\nb\n at f (w.ts:9:9)") =
      some ⟨some "f", "w.ts", 9, none⟩ ∧
    parseLine " at <anonymous> (x.ts:3:4)".data = some ⟨none, "x.ts", 3, none⟩ ∧
    matchesDialect "junk".data = false := by
  have h := getCallSite_bestEffort "a\nb" "Error\na\nb\n at f (w.ts:9:9)"
    " at <anonymous> (x.ts:3:4)".data "junk".data "<anonymous>" "x.ts" "3"
    (by decide) (by decide) (by rfl)
  refine ⟨h.2.2.1, ?_, ?_, ?_⟩
  · rw [h.2.2.2.1]; rfl
  · exact h.2.2.2.2.2
  · rw [← h.2.2.2.2.1]; rfl

/-- C5: `unwrap` on a Success returns the contained value; on any
(cause-free) Failure carrying error `e` it raises, and the raised
payload is the one-hop-extended Failure whose underlying error equals
`e`; symmetrically `unwrapErr` raises on a Success.  (`unwrap` with its
optional context and error-carrying payload is exercised by the tests
but absent from the sources; it is modelled from the spec.) -/
theorem unwrap_spec (v e : Val) (ts : List Val)
    (here : Option CallSite) (ctx : Option String)
    (hc : causeFires e = false) :
    unwrap here ctx (Ok v) = .ok v ∧
    unwrap here ctx (mkErrObj e (.varr ts)) =
      .error (mkErrObj e
        (.varr (ts ++ ((hereWithCtx here ctx).map csToVal).toList))) ∧
    jsGet (mkErrObj e
      (.varr (ts ++ ((hereWithCtx here ctx).map csToVal).toList))) "Err" = e ∧
    unwrapErr (Ok v) =
      .error (.vobj [("message", .vstr "Called `unwrapErr()` on an `Ok` value")]) := by
  refine ⟨rfl, ?_, rfl, rfl⟩
  have h := err_rewrap_gen (hereWithCtx here ctx) e ts hc
  simp [unwrap, ErrCtx, jsGet_mkErrObj_isOk, truthy, h]

/-- C5 (witness): concrete instance of `unwrap_spec` at `Ok 42` and a
string-error Failure. -/
theorem unwrap_spec_witness :
    causeFires (.vstr "fail") = false ∧
    (unwrap (some csB) none (Ok (.vint 42)) = .ok (.vint 42) ∧
    unwrap (some csB) none (mkErrObj (.vstr "fail") (.varr [])) =
      .error (mkErrObj (.vstr "fail")
        (.varr ([] ++ ((hereWithCtx (some csB) none).map csToVal).toList))) ∧
    jsGet (mkErrObj (.vstr "fail")
      (.varr ([] ++ ((hereWithCtx (some csB) none).map csToVal).toList))) "Err" =
      .vstr "fail" ∧
    unwrapErr (Ok (.vint 42)) =
      .error (.vobj [("message", .vstr "Called `unwrapErr()` on an `Ok` value")])) :=
  ⟨rfl, unwrap_spec (.vint 42) (.vstr "fail") [] (some csB) none rfl⟩

/-- C6: a context string supplied to the failure constructor or to
`unwrap` is attached to the newly appended call site and only to it —
the entries already present in the trace are carried over verbatim.
(The context parameter is exercised by the tests but absent from the
sources; it is modelled from the spec.) -/
theorem context_attaches_to_new (cs : CallSite) (c : String) (e : Val)
    (ts : List Val) (hc : causeFires e = false) :
    hereWithCtx (some cs) (some c) = some { cs with context := some c } ∧
    jsGet (csToVal { cs with context := some c }) "context" = .vstr c ∧
    ErrCtx (some cs) (some c) (mkErrObj e (.varr ts)) =
      some (mkErrObj e (.varr (ts ++ [csToVal { cs with context := some c }]))) ∧
    unwrap (some cs) (some c) (mkErrObj e (.varr ts)) =
      .error (mkErrObj e (.varr (ts ++ [csToVal { cs with context := some c }]))) := by
  have h := err_rewrap_gen (some { cs with context := some c }) e ts hc
  refine ⟨rfl, ?_, ?_, ?_⟩
  · rcases cs with ⟨fn, fl, ln, _⟩
    cases fn <;> simp [csToVal, jsGet, getField, Option.elim]
  · simpa [ErrCtx, hereWithCtx] using h
  · simp [unwrap, ErrCtx, hereWithCtx, jsGet_mkErrObj_isOk, truthy, h]

/-- C6 (witness): concrete instance of `context_attaches_to_new` with a
one-entry prior trace. -/
theorem context_attaches_to_new_witness :
    causeFires (.vstr "db down") = false ∧
    (hereWithCtx (some csB) (some "in user service") =
      some { csB with context := some "in user service" } ∧
    jsGet (csToVal { csB with context := some "in user service" }) "context" =
      .vstr "in user service" ∧
    ErrCtx (some csB) (some "in user service")
        (mkErrObj (.vstr "db down") (.varr [csToVal csA])) =
      some (mkErrObj (.vstr "db down")
        (.varr ([csToVal csA] ++
          [csToVal { csB with context := some "in user service" }]))) ∧
    unwrap (some csB) (some "in user service")
        (mkErrObj (.vstr "db down") (.varr [csToVal csA])) =
      .error (mkErrObj (.vstr "db down")
        (.varr ([csToVal csA] ++
          [csToVal { csB with context := some "in user service" }])))) :=
  ⟨rfl, context_attaches_to_new csB "in user service" (.vstr "db down")
    [csToVal csA] rfl⟩

/-- C7: `withoutTraces` (the spec's `stripTrace`, exercised by the tests
but absent from the sources, modelled from the spec) returns a Success
unchanged and turns any Failure into a new Failure with the identical
error value and an empty trace, all other fields unchanged. -/
theorem withoutTraces_spec :
    (∀ v : Val, withoutTraces (Ok v) = Ok v) ∧
    (∀ (e tr : Val), withoutTraces (mkErrObj e tr) = mkErrObj e (.varr [])) :=
  ⟨fun _ => rfl, fun _ _ => rfl⟩

/-- C8: `map` (the spec's `mapSuccess`, exercised by the tests but
absent from the sources, modelled from the spec) leaves any Failure
unchanged — with the same error value and trace — and never invokes the
supplied function (its result does not depend on it); on a Success it
applies the function, e.g. doubling 5 yields `Ok 10`. -/
theorem map_spec :
    (∀ (e tr : Val) (fn g : Val → Val),
      map (mkErrObj e tr) fn = mkErrObj e tr ∧
      map (mkErrObj e tr) fn = map (mkErrObj e tr) g) ∧
    map (Ok (.vint 5)) (fun v => Ok (double v)) = Ok (.vint 10) :=
  ⟨fun _ _ _ _ => ⟨rfl, rfl⟩, rfl⟩

/-- C9: call-site capture inspects exactly one line of the stack text,
the fourth: fewer than four lines yield no record; with at least four
lines the result is exactly the parse of the fourth line, so two stacks
with the same fourth line give the same result and an unparsable fourth
line yields no record even when a later line would have parsed. -/
theorem getCallSite_only_fourth (s t u : String)
    (hs : 3 < (splitOnChar '\n' s.data).length)
    (ht : 3 < (splitOnChar '\n' t.data).length)
    (heq : (splitOnChar '\n' s.data).get ⟨3, hs⟩ =
      (splitOnChar '\n' t.data).get ⟨3, ht⟩)
    (hu : (splitOnChar '\n' u.data).length < 4) :
    getCallSite (some s) =
      parseLine ((splitOnChar '\n' s.data).get ⟨3, hs⟩) ∧
    getCallSite (some s) = getCallSite (some t) ∧
    getCallSite (some u) = none :=
  ⟨getCallSite_fourth s hs,
    by rw [getCallSite_fourth s hs, getCallSite_fourth t ht, heq],
    getCallSite_short u hu⟩

/-- C9 (witness): a five-line stack whose fourth line is `junk` yields
no record even though its fifth line is parseable; a four-line stack
with the same fourth line gives the same (empty) result; a three-line
stack yields no record. -/
theorem getCallSite_only_fourth_witness :
    getCallSite (some "Error\na\nb\njunk\n at f (w.ts:9:9)") = none ∧
    parseLine " at f (w.ts:9:9)".data = some ⟨some "f", "w.ts", 9, none⟩ ∧
    getCallSite (some "Error\na\nb\njunk\n at f (w.ts:9:9)") =
      getCallSite (some "E\nx\ny\njunk") ∧
    getCallSite (some "a\nb\nc") = none := by
  have h := getCallSite_only_fourth "Error\na\nb\njunk\n at f (w.ts:9:9)"
    "E\nx\ny\njunk" "a\nb\nc" (by decide) (by decide) (by decide) (by decide)
  exact ⟨by rw [h.1]; rfl, by rfl, h.2.1, h.2.2⟩

/-- C10: when the input to `Err` is an existing Failure whose underlying
error value carries a truthy Failure-shaped `cause`, the cause branch
overwrites the trace computed by the re-wrap branch: the result's trace
is built from the cause's trace (preceded by the newly captured call
site when capture succeeded, or copied verbatim when it did not) and the
input Failure's own accumulated trace `ts` is discarded rather than
extended. -/
theorem err_cause_overwrites (cs : CallSite) (e : Val) (ts cts : List Val)
    (hcf : causeFires e = true)
    (hct : jsGet (jsGet e "cause") "_trace" = .varr cts) :
    Err (some cs) (mkErrObj e (.varr ts)) =
      some (mkErrObj e (.varr (csToVal cs :: cts))) ∧
    Err none (mkErrObj e (.varr ts)) =
      some (mkErrObj e (jsGet (jsGet e "cause") "_trace")) :=
  ⟨err_rewrap_cause cs e ts cts hcf hct, err_rewrap_cause_none e ts hcf⟩

/-- C10 (witness): concrete instance of `err_cause_overwrites` — the
input Failure's one-entry trace `[csA]` is discarded and replaced by
`[csB]` (the new call site plus the cause's empty trace). -/
theorem err_cause_overwrites_witness :
    causeFires eWithCause = true ∧
    jsGet (jsGet eWithCause "cause") "_trace" = .varr [] ∧
    (Err (some csB) (mkErrObj eWithCause (.varr [csToVal csA])) =
      some (mkErrObj eWithCause (.varr (csToVal csB :: []))) ∧
    Err none (mkErrObj eWithCause (.varr [csToVal csA])) =
      some (mkErrObj eWithCause (jsGet (jsGet eWithCause "cause") "_trace"))) :=
  ⟨rfl, rfl, err_cause_overwrites csB eWithCause [csToVal csA] [] rfl rfl⟩

end ResultTs
